import Mathlib

/-!
Shallow embedding of the AI-Content-Creator-Tool repository.

Strings are modelled as lists of characters (`Str`).  Pure helpers
(`slugify`, the CSV serialization, `Math.round`) are translated from
`src/services/geminiService.ts` and the `App` component
(`src/unnamed/part_000` / `src/unnamed/part_001`).  The React component
state is modelled as an explicit record, and each generation handler is
modelled as a function producing the ordered list of observable events
(service calls and state writes) it performs, parameterized by an oracle
giving the external service's responses.
-/

/-- Strings are modelled as lists of characters. -/
abbrev Str := List Char

/-! ## slugify (src/services/geminiService.ts, lines 8-10)

  `(s || "ndgroup").toLowerCase().normalize('NFD')
     .replace(/\p{Diacritic}/gu, '')
     .replace(/[^a-z0-9]+/g, '-')
     .replace(/(^-|-$)/g, '')`
-/

/-- Char-wise model of JavaScript `toLowerCase`; the inputs exercised here
contain no upper-case non-ASCII letters, so the ASCII case map suffices. -/
def jsToLower (c : Char) : Char := c.toLower

/-- NFD decomposition, per character.  Covers the precomposed Vietnamese
letters appearing in the verified inputs; other characters are atomic. -/
def nfd (c : Char) : List Char :=
  if c = 'à' then ['a', '\u0300']
  else if c = 'ả' then ['a', '\u0309']
  else [c]

/-- Model of the `\p{Diacritic}` character class on the combining
diacritical marks block containing the marks produced by `nfd`. -/
def isDiacritic (c : Char) : Bool :=
  0x300 ≤ c.toNat && c.toNat ≤ 0x36F

/-- `[a-z0-9]` -/
def isAlnumLower (c : Char) : Bool :=
  ('a' ≤ c && c ≤ 'z') || ('0' ≤ c && c ≤ '9')

/-- `.replace(/[^a-z0-9]+/g, '-')`: each maximal run of characters outside
`[a-z0-9]` is replaced by a single hyphen.  The boolean flag records
whether we are inside such a run (so further run characters are skipped). -/
def collapseRuns : Bool → List Char → List Char
  | _, [] => []
  | inRun, c :: rest =>
    if isAlnumLower c then c :: collapseRuns false rest
    else if inRun then collapseRuns true rest
    else '-' :: collapseRuns true rest

/-- Drop one leading hyphen, if present (the `^-` alternative). -/
def dropLeadHyphen (l : List Char) : List Char :=
  match l with
  | [] => []
  | c :: t => if c = '-' then t else c :: t

/-- `.replace(/(^-|-$)/g, '')`: remove one leading and one trailing
hyphen.  The anchored alternatives can each match at most once; matching
proceeds left to right, so the leading hyphen is removed first. -/
def trimHyphens (l : List Char) : List Char :=
  ((dropLeadHyphen l).reverse |> dropLeadHyphen).reverse

/-- `slugify` from src/services/geminiService.ts: empty input falls back to
"ndgroup"; then lower-case, NFD, strip diacritics, collapse non-alphanumeric
runs to single hyphens, trim a leading/trailing hyphen. -/
def slugify (s : Str) : Str :=
  let s1 := if s = [] then ("ndgroup".data) else s
  let s2 := (s1.map jsToLower).flatMap nfd
  let s3 := s2.filter (fun c => !(isDiacritic c))
  trimHyphens (collapseRuns false s3)

/-! ## CSV serialization (downloadCSV in the App component) -/

/-- `v.replace(/"/g, '""')` -/
def escapeQuotes (v : Str) : Str :=
  v.flatMap (fun c => if c = '"' then ['"', '"'] else [c])

/-- One field: `"${v.replace(/"/g,'""')}"` -/
def quoteField (v : Str) : Str :=
  '"' :: (escapeQuotes v ++ ['"'])

/-- JavaScript `Array.join(sep)`. -/
def joinSep (sep : Str) : List Str → Str
  | [] => []
  | [r] => r
  | r :: r2 :: rs => r ++ sep ++ joinSep sep (r2 :: rs)

/-- `processRow`: each field quoted, joined by commas. -/
def processRow (row : List Str) : Str :=
  joinSep [','] (row.map quoteField)

/-- The UTF-8 byte-order mark, prepended as the code point U+FEFF. -/
def bomChar : Char := '\uFEFF'

/-- `csvContent`: BOM, then the rows each rendered by `processRow`,
joined by CRLF. -/
def csvContent (rows : List (List Str)) : Str :=
  bomChar :: joinSep ['\r', '\n'] (rows.map processRow)

/-- File name used by `exportScriptCSV`. -/
def exportScriptFilename (bookTitle : Str) : Str :=
  ("kichban_".data) ++ slugify bookTitle ++ (".csv".data)

/-! ## Math.round on a nonnegative quotient -/

/-- `Math.round(a / b)` for natural `a` and positive `b`:
`floor(a/b + 1/2)`, i.e. halves round up. -/
def jsRound (a b : Nat) : Nat := (2 * a + b) / (2 * b)

example : slugify ("Nhà Giả Kim".data) = ("nha-gia-kim".data) := by decide
example : slugify [] = ("ndgroup".data) := by decide
example : slugify ("!!!".data) = [] := by decide
example : jsRound (240 * 1000) 12 = 20000 := by decide
example : processRow [("c,d".data), ("e\"f".data)] = ("\"c,d\",\"e\"\"f\"".data) := by decide
example : csvContent [[("a".data), ("b".data)], [("c,d".data), ("e\"f".data)]]
    = bomChar :: ("\"a\",\"b\"\r\n\"c,d\",\"e\"\"f\"".data) := by decide

/-! ## Data model (src/types, as used by the App component) -/

/-- An outline item as returned by the service, before the App assigns
its sequence index. -/
structure OutlineItemRaw where
  title : Str
  focus : Str
  actions : List Str
  deriving DecidableEq

/-- `OutlineItem`: the raw item plus the sequence index assigned by the
App (`result.map((item, index) => ({ ...item, index }))`). -/
structure OutlineItem where
  index : Nat
  title : Str
  focus : Str
  actions : List Str
  deriving DecidableEq

/-- `ScriptBlock`. -/
structure ScriptBlock where
  index : Nat
  chapter : Str
  text : Str
  chars : Nat
  deriving DecidableEq

/-- `SEOResult`. -/
structure SEOResult where
  titles : List Str
  hashtags : List Str
  keywords : List Str
  description : Str
  deriving DecidableEq

/-- The four keys of `LoadingStates`. -/
inductive OpKey where
  | outline
  | seo
  | script
  | prompts
  deriving DecidableEq

/-- `LoadingStates`: one busy flag per operation. -/
structure LoadingStates where
  outline : Bool
  seo : Bool
  script : Bool
  prompts : Bool
  deriving DecidableEq

/-- The component state of `App` (src/unnamed/part_000): inputs,
credentials, results, busy flags and the error message. -/
structure AppState where
  bookTitle : Str
  frameRatio : Str
  durationMin : Nat
  chaptersCount : Nat
  selectedModel : Str
  apiKeyGemini : Str
  apiKeyOpenAI : Str
  outline : List OutlineItem
  seo : Option SEOResult
  scriptBlocks : List ScriptBlock
  videoPrompts : List Str
  thumbTextIdeas : List Str
  loading : LoadingStates
  error : Option Str
  deriving DecidableEq

/-- A request to the generation service, with the arguments the App
passes at each call site. -/
inductive ServiceCall where
  | outlineCall (bookTitle : Str) (chaptersCount durationMin : Nat) (model apiKey : Str)
  | seoCall (bookTitle : Str) (durationMin : Nat) (model apiKey : Str)
  | scriptBlockCall (item : OutlineItem) (bookTitle : Str) (targetChars : Nat) (model apiKey : Str)
  | videoPromptsCall (bookTitle frameRatio : Str) (model apiKey : Str)
  | thumbIdeasCall (bookTitle : Str) (durationMin : Nat) (model apiKey : Str)
  deriving DecidableEq

/-- Observable events of a handler run, in temporal order: service
requests and state writes. -/
inductive Ev where
  | call (c : ServiceCall)
  | setError (e : Option Str)
  | setLoading (k : OpKey) (b : Bool)
  | setOutline (o : List OutlineItem)
  | setSeo (r : SEOResult)
  | setScriptBlocksEmpty
  | appendScriptBlock (b : ScriptBlock)
  | setVideoPrompts (ps : List Str)
  | setThumbTextIdeas (ts : List Str)
  deriving DecidableEq

/-- Responses of the external service.  Script-block responses are
indexed by the position of the request in the sequential loop. -/
structure Oracle where
  outlineResp : Except Str (List OutlineItemRaw)
  seoResp : Except Str SEOResult
  scriptResp : Nat → Except Str Str
  videoResp : Except Str (List Str)
  thumbResp : Except Str (List Str)

/-- Write one busy flag. -/
def setFlag (l : LoadingStates) (k : OpKey) (b : Bool) : LoadingStates :=
  match k with
  | .outline => { l with outline := b }
  | .seo => { l with seo := b }
  | .script => { l with script := b }
  | .prompts => { l with prompts := b }

/-- Read one busy flag. -/
def flagOf (l : LoadingStates) : OpKey → Bool
  | .outline => l.outline
  | .seo => l.seo
  | .script => l.script
  | .prompts => l.prompts

/-- Effect of one event on the component state; `call` does not touch
state.  `appendScriptBlock` is the functional update
`prev => [...prev, newBlock]`. -/
def applyEv (st : AppState) : Ev → AppState
  | .call _ => st
  | .setError e => { st with error := e }
  | .setLoading k b => { st with loading := setFlag st.loading k b }
  | .setOutline o => { st with outline := o }
  | .setSeo r => { st with seo := some r }
  | .setScriptBlocksEmpty => { st with scriptBlocks := [] }
  | .appendScriptBlock b => { st with scriptBlocks := st.scriptBlocks ++ [b] }
  | .setVideoPrompts ps => { st with videoPrompts := ps }
  | .setThumbTextIdeas ts => { st with thumbTextIdeas := ts }

/-- Replay a handler's events over a starting state. -/
def run (st : AppState) (evs : List Ev) : AppState :=
  evs.foldl applyEv st

/-! ## withErrorHandling (src/unnamed/part_000, lines 77-100)

The same wrapper in src/unnamed/part_001 (lines 58-75) differs only in
lacking the OpenAI-key check. -/

/-- Precondition message for a missing book title. -/
def msgNeedTitle : Str := ("Vui lòng nhập tên sách trước.".data)

/-- Precondition message for a missing OpenAI key. -/
def msgNeedOpenAIKey : Str :=
  ("Vui lòng nhập OpenAI API Key để sử dụng các model ChatGPT.".data)

/-- `selectedModel.startsWith("gpt")`. -/
def startsWithGpt : Str → Bool
  | 'g' :: 'p' :: 't' :: _ => true
  | _ => false

/-- The precondition gate: `!bookTitle`, then
`selectedModel.startsWith("gpt") && !apiKeyOpenAI`. -/
def gateError (st : AppState) : Option Str :=
  if st.bookTitle.isEmpty then some msgNeedTitle
  else if startsWithGpt st.selectedModel && st.apiKeyOpenAI.isEmpty then
    some msgNeedOpenAIKey
  else none

/-- The interpolated `key` in the catch-branch message. -/
def opName : OpKey → Str
  | .outline => ("outline".data)
  | .seo => ("seo".data)
  | .script => ("script".data)
  | .prompts => ("prompts".data)

/-- The catch-branch message
`Đã xảy ra lỗi khi tạo ${key}. Vui lòng thử lại. Lỗi: ${err}`. -/
def opErrMsg (k : OpKey) (e : Str) : Str :=
  ("Đã xảy ra lỗi khi tạo ".data) ++ opName k
    ++ (". Vui lòng thử lại. Lỗi: ".data) ++ e

/-- `withErrorHandling`: on gate failure, set the error and stop (no body
events); otherwise clear the error, set the busy flag, run the body, on a
body error set the catch message, and finally clear the busy flag. -/
def withErrorHandling (key : OpKey) (body : List Ev × Except Str Unit)
    (st : AppState) : List Ev :=
  match gateError st with
  | some msg => [Ev.setError (some msg)]
  | none =>
    Ev.setError none :: Ev.setLoading key true ::
      (body.1
        ++ (match body.2 with
            | .ok _ => []
            | .error e => [Ev.setError (some (opErrMsg key e))])
        ++ [Ev.setLoading key false])

/-- `result.map((item, index) => ({ ...item, index }))`. -/
def enumOutline (raws : List OutlineItemRaw) : List OutlineItem :=
  raws.enum.map (fun p => ⟨p.1, p.2.title, p.2.focus, p.2.actions⟩)

/-- Body of `handleGenerateOutline`. -/
def outlineBody (o : Oracle) (st : AppState) : List Ev × Except Str Unit :=
  let c := Ev.call (ServiceCall.outlineCall st.bookTitle st.chaptersCount
    st.durationMin st.selectedModel st.apiKeyGemini)
  match o.outlineResp with
  | .error e => ([c], .error e)
  | .ok raws => ([c, Ev.setOutline (enumOutline raws)], .ok ())

/-- `handleGenerateOutline`. -/
def handleGenerateOutline (o : Oracle) (st : AppState) : List Ev :=
  withErrorHandling .outline (outlineBody o st) st

/-- Body of `handleGenerateSEO`. -/
def seoBody (o : Oracle) (st : AppState) : List Ev × Except Str Unit :=
  let c := Ev.call (ServiceCall.seoCall st.bookTitle st.durationMin
    st.selectedModel st.apiKeyGemini)
  match o.seoResp with
  | .error e => ([c], .error e)
  | .ok r => ([c, Ev.setSeo r], .ok ())

/-- `handleGenerateSEO`. -/
def handleGenerateSEO (o : Oracle) (st : AppState) : List Ev :=
  withErrorHandling .seo (seoBody o st) st

/-- Body of `handleGeneratePrompts`: `Promise.all` issues both requests
before awaiting; results are committed only after both resolve, and a
single rejection rejects the join with that error. -/
def promptsBody (o : Oracle) (st : AppState) : List Ev × Except Str Unit :=
  let c1 := Ev.call (ServiceCall.videoPromptsCall st.bookTitle st.frameRatio
    st.selectedModel st.apiKeyGemini)
  let c2 := Ev.call (ServiceCall.thumbIdeasCall st.bookTitle st.durationMin
    st.selectedModel st.apiKeyGemini)
  match o.videoResp, o.thumbResp with
  | .ok ps, .ok ts =>
    ([c1, c2, Ev.setVideoPrompts ps, Ev.setThumbTextIdeas ts], .ok ())
  | .error e, _ => ([c1, c2], .error e)
  | .ok _, .error e => ([c1, c2], .error e)

/-- `handleGeneratePrompts`. -/
def handleGeneratePrompts (o : Oracle) (st : AppState) : List Ev :=
  withErrorHandling .prompts (promptsBody o st) st

/-- The `ScriptBlock` built for one completed item: 1-based index,
chapter title copied from the item, and `chars` the length of the
returned text. -/
def mkBlock (item : OutlineItem) (text : Str) : ScriptBlock :=
  ⟨item.index + 1, item.title, text, text.length⟩

/-- The sequential `for (const item of currentOutline)` loop: request the
block for the head item; only once its result is received, append the
block and continue with the rest.  `k` counts the requests issued so far,
indexing the oracle. -/
def scriptLoop (o : Oracle) (bookTitle : Str) (cpb : Nat) (model apiKey : Str) :
    List OutlineItem → Nat → List Ev × Except Str Unit
  | [], _ => ([], .ok ())
  | item :: rest, k =>
    let c := Ev.call (ServiceCall.scriptBlockCall item bookTitle cpb model apiKey)
    match o.scriptResp k with
    | .error e => ([c], .error e)
    | .ok text =>
      let r := scriptLoop o bookTitle cpb model apiKey rest (k + 1)
      (c :: Ev.appendScriptBlock (mkBlock item text) :: r.1, r.2)

/-- Body of `handleGenerateScript`: clear the blocks, generate and store
an outline when none exists, compute the per-block character target
`Math.round(totalCharsTarget / totalWeight)`, then run the sequential
loop. -/
def scriptBody (o : Oracle) (st : AppState) : List Ev × Except Str Unit :=
  if st.outline.isEmpty then
    let c := Ev.call (ServiceCall.outlineCall st.bookTitle st.chaptersCount
      st.durationMin st.selectedModel st.apiKeyGemini)
    match o.outlineResp with
    | .error e => ([Ev.setScriptBlocksEmpty, c], .error e)
    | .ok raws =>
      let cur := enumOutline raws
      let cpb := jsRound (st.durationMin * 1000) cur.length
      let r := scriptLoop o st.bookTitle cpb st.selectedModel st.apiKeyGemini cur 0
      (Ev.setScriptBlocksEmpty :: c :: Ev.setOutline cur :: r.1, r.2)
  else
    let cpb := jsRound (st.durationMin * 1000) st.outline.length
    let r := scriptLoop o st.bookTitle cpb st.selectedModel st.apiKeyGemini st.outline 0
    (Ev.setScriptBlocksEmpty :: r.1, r.2)

/-- `handleGenerateScript`. -/
def handleGenerateScript (o : Oracle) (st : AppState) : List Ev :=
  withErrorHandling .script (scriptBody o st) st

/-- The handler selected by an operation key. -/
def handlerOf : OpKey → Oracle → AppState → List Ev
  | .outline => handleGenerateOutline
  | .seo => handleGenerateSEO
  | .script => handleGenerateScript
  | .prompts => handleGeneratePrompts

/-- Is an event a service request? -/
def isCallEv : Ev → Bool
  | .call _ => true
  | _ => false

/-- Does an event surface an error message? -/
def setsErrorMsg : Ev → Bool
  | .setError (some _) => true
  | _ => false

/-! ## Generic facts about replaying events -/

theorem run_append (st : AppState) (evs1 evs2 : List Ev) :
    run st (evs1 ++ evs2) = run (run st evs1) evs2 :=
  List.foldl_append ..

/-! ## Facts about the index assignment `enumOutline` -/

theorem enumFrom_mk_map_index (raws : List OutlineItemRaw) : ∀ n : Nat,
    ((raws.enumFrom n).map
        (fun p => (⟨p.1, p.2.title, p.2.focus, p.2.actions⟩ : OutlineItem))).map
      OutlineItem.index = List.range' n raws.length := by
  induction raws with
  | nil => intro n; simp
  | cons r rs ih =>
    intro n
    simp only [List.enumFrom, List.map_cons, List.length_cons, List.range'_succ]
    exact congrArg (n :: ·) (ih (n + 1))

theorem enumOutline_map_index (raws : List OutlineItemRaw) :
    (enumOutline raws).map OutlineItem.index = List.range raws.length := by
  rw [List.range_eq_range']
  exact enumFrom_mk_map_index raws 0

theorem enumFrom_mk_map_title (raws : List OutlineItemRaw) : ∀ n : Nat,
    ((raws.enumFrom n).map
        (fun p => (⟨p.1, p.2.title, p.2.focus, p.2.actions⟩ : OutlineItem))).map
      OutlineItem.title = raws.map OutlineItemRaw.title := by
  induction raws with
  | nil => intro n; simp
  | cons r rs ih =>
    intro n
    simp only [List.enumFrom, List.map_cons]
    exact congrArg (r.title :: ·) (ih (n + 1))

theorem enumFrom_mk_map_focus (raws : List OutlineItemRaw) : ∀ n : Nat,
    ((raws.enumFrom n).map
        (fun p => (⟨p.1, p.2.title, p.2.focus, p.2.actions⟩ : OutlineItem))).map
      OutlineItem.focus = raws.map OutlineItemRaw.focus := by
  induction raws with
  | nil => intro n; simp
  | cons r rs ih =>
    intro n
    simp only [List.enumFrom, List.map_cons]
    exact congrArg (r.focus :: ·) (ih (n + 1))

theorem enumFrom_mk_map_actions (raws : List OutlineItemRaw) : ∀ n : Nat,
    ((raws.enumFrom n).map
        (fun p => (⟨p.1, p.2.title, p.2.focus, p.2.actions⟩ : OutlineItem))).map
      OutlineItem.actions = raws.map OutlineItemRaw.actions := by
  induction raws with
  | nil => intro n; simp
  | cons r rs ih =>
    intro n
    simp only [List.enumFrom, List.map_cons]
    exact congrArg (r.actions :: ·) (ih (n + 1))

/-! ## Claim C6 -/

/-- Claim C6: for every outline generation whose service response is a
list of length N, the stored outline assigns sequence indices exactly
0..N-1 to the items in response order, with the other item fields (title,
focus, actions) unchanged. -/
theorem outline_indices_zero_based (o : Oracle) (st : AppState)
    (raws : List OutlineItemRaw)
    (hg : gateError st = none) (hr : o.outlineResp = .ok raws) :
    (run st (handleGenerateOutline o st)).outline = enumOutline raws
    ∧ (enumOutline raws).map OutlineItem.index = List.range raws.length
    ∧ (enumOutline raws).map OutlineItem.title = raws.map OutlineItemRaw.title
    ∧ (enumOutline raws).map OutlineItem.focus = raws.map OutlineItemRaw.focus
    ∧ (enumOutline raws).map OutlineItem.actions = raws.map OutlineItemRaw.actions := by
  refine ⟨?_, enumOutline_map_index raws, enumFrom_mk_map_title raws 0,
    enumFrom_mk_map_focus raws 0, enumFrom_mk_map_actions raws 0⟩
  unfold handleGenerateOutline withErrorHandling outlineBody
  rw [hg, hr]
  simp [run, applyEv]

/-- A state whose gate passes, used to instantiate the universally
quantified theorems at concrete inputs. -/
def stBase : AppState :=
  { bookTitle := ("Nhà Giả Kim".data)
    frameRatio := ("9:16".data)
    durationMin := 240
    chaptersCount := 12
    selectedModel := ("gemini-3-pro-preview".data)
    apiKeyGemini := ("g-key".data)
    apiKeyOpenAI := []
    outline := []
    seo := none
    scriptBlocks := []
    videoPrompts := []
    thumbTextIdeas := []
    loading := ⟨false, false, false, false⟩
    error := none }

/-- Two concrete raw outline items. -/
def rawsW : List OutlineItemRaw :=
  [⟨("Hook".data), ("Mở đầu".data), [("h1".data)]⟩,
   ⟨("Intro".data), ("POV".data), [("i1".data), ("i2".data)]⟩]

/-- An oracle whose every response succeeds. -/
def oracleOk : Oracle :=
  { outlineResp := .ok rawsW
    seoResp := .ok ⟨[("t1".data)], [("#x".data)], [("k1".data)], ("mô tả".data)⟩
    scriptResp := fun k => .ok ('x' :: Nat.toDigits 10 k)
    videoResp := .ok [("p1".data), ("p2".data)]
    thumbResp := .ok [("th1".data)] }

/-- Witness for C6 at a concrete state and oracle. -/
theorem outline_indices_zero_based_witness :
    gateError stBase = none ∧ oracleOk.outlineResp = .ok rawsW
    ∧ (run stBase (handleGenerateOutline oracleOk stBase)).outline = enumOutline rawsW
    ∧ (enumOutline rawsW).map OutlineItem.index = List.range rawsW.length := by
  refine ⟨by decide, rfl, ?_, ?_⟩
  · exact (outline_indices_zero_based oracleOk stBase rawsW (by decide) rfl).1
  · exact (outline_indices_zero_based oracleOk stBase rawsW (by decide) rfl).2.1

/-! ## The shape of an all-successful sequential script run -/

/-- The expected event trace of the sequential loop when every request
succeeds: for each item in order, one request immediately followed by the
append of its block, before the next request is issued. -/
def seqScriptEvs (bookTitle : Str) (cpb : Nat) (model apiKey : Str)
    (texts : Nat → Str) : List OutlineItem → Nat → List Ev
  | [], _ => []
  | item :: rest, k =>
    Ev.call (ServiceCall.scriptBlockCall item bookTitle cpb model apiKey) ::
      Ev.appendScriptBlock (mkBlock item (texts k)) ::
        seqScriptEvs bookTitle cpb model apiKey texts rest (k + 1)

/-- The blocks appended by an all-successful sequential run. -/
def seqBlocks (texts : Nat → Str) : List OutlineItem → Nat → List ScriptBlock
  | [], _ => []
  | item :: rest, k => mkBlock item (texts k) :: seqBlocks texts rest (k + 1)

theorem scriptLoop_ok (o : Oracle) (bt : Str) (cpb : Nat) (m a : Str)
    (texts : Nat → Str) : ∀ (items : List OutlineItem) (k : Nat),
    (∀ j, j < items.length → o.scriptResp (k + j) = .ok (texts (k + j))) →
    scriptLoop o bt cpb m a items k = (seqScriptEvs bt cpb m a texts items k, .ok ()) := by
  intro items
  induction items with
  | nil => intro k _; rfl
  | cons item rest ih =>
    intro k hok
    have h0 : o.scriptResp k = .ok (texts k) := by
      have := hok 0 (by simp)
      simpa using this
    have hrest : ∀ j, j < rest.length → o.scriptResp (k + 1 + j) = .ok (texts (k + 1 + j)) := by
      intro j hj
      have := hok (j + 1) (by simpa using Nat.succ_lt_succ hj)
      simpa [Nat.add_assoc, Nat.add_comm 1 j] using this
    simp only [scriptLoop, seqScriptEvs, h0, ih (k + 1) hrest]

theorem run_seqScriptEvs (bt : Str) (cpb : Nat) (m a : Str) (texts : Nat → Str) :
    ∀ (items : List OutlineItem) (k : Nat) (st : AppState),
    run st (seqScriptEvs bt cpb m a texts items k)
      = { st with scriptBlocks := st.scriptBlocks ++ seqBlocks texts items k } := by
  intro items
  induction items with
  | nil => intro k st; simp [seqScriptEvs, seqBlocks, run]
  | cons item rest ih =>
    intro k st
    simp only [seqScriptEvs, seqBlocks, run, List.foldl_cons, applyEv]
    rw [show (List.foldl applyEv) = run from rfl, ih (k + 1)]
    simp [List.append_assoc]

theorem seqBlocks_length (texts : Nat → Str) :
    ∀ (items : List OutlineItem) (k : Nat),
    (seqBlocks texts items k).length = items.length := by
  intro items
  induction items with
  | nil => intro k; rfl
  | cons item rest ih => intro k; simp [seqBlocks, ih (k + 1)]

theorem seqBlocks_map_index (texts : Nat → Str) :
    ∀ (items : List OutlineItem) (k : Nat),
    (seqBlocks texts items k).map ScriptBlock.index
      = items.map (fun it => it.index + 1) := by
  intro items
  induction items with
  | nil => intro k; rfl
  | cons item rest ih => intro k; simp [seqBlocks, mkBlock, ih (k + 1)]

theorem enumFrom_mk_map_index_succ (raws : List OutlineItemRaw) : ∀ n : Nat,
    ((raws.enumFrom n).map
        (fun p => (⟨p.1, p.2.title, p.2.focus, p.2.actions⟩ : OutlineItem))).map
      (fun it => it.index + 1) = List.range' (n + 1) raws.length := by
  induction raws with
  | nil => intro n; simp
  | cons r rs ih =>
    intro n
    simp only [List.enumFrom, List.map_cons, List.length_cons, List.range'_succ]
    exact congrArg ((n + 1) :: ·) (ih (n + 1))

theorem enumOutline_length (raws : List OutlineItemRaw) :
    (enumOutline raws).length = raws.length := by
  simp [enumOutline]

/-! ## Claim C2 -/

/-- Claim C2: a script generation started with an empty stored outline
first generates and stores an outline, then issues the script-block
requests strictly sequentially over the outline items in order (each
request only after the previous result was received and its block
appended), appending one block per completed item; the number of blocks
equals the number of outline items and the block indices are 1..N in
outline order. -/
theorem script_generation_sequential (o : Oracle) (st : AppState)
    (raws : List OutlineItemRaw) (texts : Nat → Str)
    (hg : gateError st = none) (hempty : st.outline = [])
    (hr : o.outlineResp = .ok raws)
    (hs : ∀ j, j < raws.length → o.scriptResp j = .ok (texts j)) :
    handleGenerateScript o st
      = Ev.setError none :: Ev.setLoading .script true :: Ev.setScriptBlocksEmpty ::
        Ev.call (ServiceCall.outlineCall st.bookTitle st.chaptersCount st.durationMin
          st.selectedModel st.apiKeyGemini) ::
        Ev.setOutline (enumOutline raws) ::
        (seqScriptEvs st.bookTitle
            (jsRound (st.durationMin * 1000) (enumOutline raws).length)
            st.selectedModel st.apiKeyGemini texts (enumOutline raws) 0
          ++ [Ev.setLoading .script false])
    ∧ (run st (handleGenerateScript o st)).scriptBlocks.length = raws.length
    ∧ (run st (handleGenerateScript o st)).scriptBlocks.map ScriptBlock.index
        = List.range' 1 raws.length := by
  have hlen : (enumOutline raws).length = raws.length := enumOutline_length raws
  have hloop := scriptLoop_ok o st.bookTitle
    (jsRound (st.durationMin * 1000) (enumOutline raws).length)
    st.selectedModel st.apiKeyGemini texts (enumOutline raws) 0
    (by intro j hj; simpa using hs j (by rwa [hlen] at hj))
  have htrace : handleGenerateScript o st
      = Ev.setError none :: Ev.setLoading .script true :: Ev.setScriptBlocksEmpty ::
        Ev.call (ServiceCall.outlineCall st.bookTitle st.chaptersCount st.durationMin
          st.selectedModel st.apiKeyGemini) ::
        Ev.setOutline (enumOutline raws) ::
        (seqScriptEvs st.bookTitle
            (jsRound (st.durationMin * 1000) (enumOutline raws).length)
            st.selectedModel st.apiKeyGemini texts (enumOutline raws) 0
          ++ [Ev.setLoading .script false]) := by
    unfold handleGenerateScript withErrorHandling scriptBody
    rw [hg]
    simp only [hempty, List.isEmpty_nil, if_true, hr, hloop]
    simp [List.append_assoc]
  refine ⟨htrace, ?_, ?_⟩
  · rw [htrace]
    simp only [run, List.foldl_cons, applyEv]
    rw [show (List.foldl applyEv) = run from rfl, run_append, run_seqScriptEvs]
    simp [run, applyEv, seqBlocks_length, hlen]
  · rw [htrace]
    simp only [run, List.foldl_cons, applyEv]
    rw [show (List.foldl applyEv) = run from rfl, run_append, run_seqScriptEvs]
    simp only [run, List.foldl_cons, List.foldl_nil, applyEv, List.nil_append]
    rw [seqBlocks_map_index]
    exact enumFrom_mk_map_index_succ raws 0

/-- Witness for C2: concrete state with empty outline, all-success
oracle with two outline items. -/
theorem script_generation_sequential_witness :
    stBase.outline = []
    ∧ (run stBase (handleGenerateScript oracleOk stBase)).scriptBlocks.length
        = rawsW.length
    ∧ (run stBase (handleGenerateScript oracleOk stBase)).scriptBlocks.map
        ScriptBlock.index = List.range' 1 rawsW.length :=
  ⟨rfl, (script_generation_sequential oracleOk stBase rawsW
    (fun k => 'x' :: Nat.toDigits 10 k) (by decide) rfl rfl (fun _ _ => rfl)).2⟩

/-! ## Membership decomposition through the wrapper and the loop -/

theorem mem_withErrorHandling_cases (key : OpKey) (body : List Ev × Except Str Unit)
    (st : AppState) (e : Ev) (h : e ∈ withErrorHandling key body st) :
    (∃ m, e = Ev.setError m) ∨ (∃ bb, e = Ev.setLoading key bb) ∨ e ∈ body.1 := by
  unfold withErrorHandling at h
  cases hg : gateError st with
  | some msg =>
    rw [hg] at h
    simp only [List.mem_singleton] at h
    exact Or.inl ⟨some msg, h⟩
  | none =>
    rw [hg] at h
    simp only [List.mem_cons, List.mem_append] at h
    rcases h with h | h | (h | h) | h
    · exact Or.inl ⟨none, h⟩
    · exact Or.inr (Or.inl ⟨true, h⟩)
    · exact Or.inr (Or.inr h)
    · cases hb : body.2 with
      | ok u => rw [hb] at h; simp at h
      | error er =>
        rw [hb] at h
        simp only [List.mem_singleton] at h
        exact Or.inl ⟨some (opErrMsg key er), h⟩
    · rcases h with h | h
      · exact Or.inr (Or.inl ⟨false, h⟩)
      · exact absurd h (List.not_mem_nil e)

theorem scriptLoop_append_mem (o : Oracle) (bt : Str) (cpb : Nat) (m a : Str) :
    ∀ (items : List OutlineItem) (k : Nat) (b : ScriptBlock),
    Ev.appendScriptBlock b ∈ (scriptLoop o bt cpb m a items k).1 →
    ∃ item text, b = mkBlock item text := by
  intro items
  induction items with
  | nil => intro k b h; simp [scriptLoop] at h
  | cons item rest ih =>
    intro k b h
    cases hr : o.scriptResp k with
    | error e => simp [scriptLoop, hr] at h
    | ok text =>
      simp only [scriptLoop, hr, List.mem_cons] at h
      rcases h with h | h | h
      · exact absurd h (by simp)
      · refine ⟨item, text, ?_⟩
        injection h
      · exact ih (k + 1) b h

theorem scriptBody_append_mem (o : Oracle) (st : AppState) (b : ScriptBlock)
    (h : Ev.appendScriptBlock b ∈ (scriptBody o st).1) :
    ∃ item text, b = mkBlock item text := by
  unfold scriptBody at h
  by_cases he : st.outline.isEmpty = true
  · simp only [he, if_true] at h
    cases hr : o.outlineResp with
    | error e => simp [hr] at h
    | ok raws =>
      simp only [hr, List.mem_cons] at h
      rcases h with h | h | h | h
      · exact absurd h (by simp)
      · exact absurd h (by simp)
      · exact absurd h (by simp)
      · exact scriptLoop_append_mem o st.bookTitle _ st.selectedModel st.apiKeyGemini
          (enumOutline raws) 0 b h
  · rw [if_neg he] at h
    simp only [List.mem_cons] at h
    rcases h with h | h
    · exact absurd h (by simp)
    · exact scriptLoop_append_mem o st.bookTitle _ st.selectedModel st.apiKeyGemini
        st.outline 0 b h

/-! ## Claim C5 -/

/-- Claim C5: every `ScriptBlock` ever appended to the result list has
its `chars` field equal to the character length of its `text` field. -/
theorem scriptblock_chars_eq_text_length (o : Oracle) (st : AppState)
    (b : ScriptBlock) (h : Ev.appendScriptBlock b ∈ handleGenerateScript o st) :
    b.chars = b.text.length := by
  rcases mem_withErrorHandling_cases .script (scriptBody o st) st _ h with
    ⟨m, hm⟩ | ⟨bb, hb⟩ | hbody
  · exact absurd hm (by simp)
  · exact absurd hb (by simp)
  · obtain ⟨item, text, rfl⟩ := scriptBody_append_mem o st b hbody
    rfl

/-- The first block appended in the concrete run used as C5 witness. -/
def blockW : ScriptBlock :=
  mkBlock ⟨0, ("Hook".data), ("Mở đầu".data), [("h1".data)]⟩ ('x' :: Nat.toDigits 10 0)

/-- Witness for C5: a block actually appended in a concrete run. -/
theorem scriptblock_chars_eq_text_length_witness :
    Ev.appendScriptBlock blockW ∈ handleGenerateScript oracleOk stBase
    ∧ blockW.chars = blockW.text.length := by
  have hmem : Ev.appendScriptBlock blockW ∈ handleGenerateScript oracleOk stBase := by
    decide
  exact ⟨hmem, scriptblock_chars_eq_text_length oracleOk stBase _ hmem⟩

/-! ## Claim C7 -/

theorem scriptLoop_call_target (o : Oracle) (bt : Str) (cpb : Nat) (m a : Str) :
    ∀ (items : List OutlineItem) (k : Nat) (item : OutlineItem) (bt' : Str)
      (tc : Nat) (m' a' : Str),
    Ev.call (ServiceCall.scriptBlockCall item bt' tc m' a')
        ∈ (scriptLoop o bt cpb m a items k).1 →
    tc = cpb := by
  intro items
  induction items with
  | nil => intro k item bt' tc m' a' h; simp [scriptLoop] at h
  | cons it rest ih =>
    intro k item bt' tc m' a' h
    cases hr : o.scriptResp k with
    | error e =>
      simp only [scriptLoop, hr, List.mem_singleton] at h
      injection h with h
      injection h
    | ok text =>
      simp only [scriptLoop, hr, List.mem_cons] at h
      rcases h with h | h | h
      · injection h with h
        injection h
      · exact absurd h (by simp)
      · exact ih (k + 1) item bt' tc m' a' h

/-- Claim C7: for every script generation over a non-empty stored outline
of length L with duration d minutes, the character target passed to each
script-block request equals round(d × 1000 / L); and for d = 240, L = 12
the target is 20000. -/
theorem per_block_target_is_round (o : Oracle) (st : AppState)
    (hne : st.outline.isEmpty = false)
    (item : OutlineItem) (bt : Str) (tc : Nat) (m a : Str)
    (hmem : Ev.call (ServiceCall.scriptBlockCall item bt tc m a)
      ∈ handleGenerateScript o st) :
    tc = jsRound (st.durationMin * 1000) st.outline.length
    ∧ jsRound (240 * 1000) 12 = 20000 := by
  refine ⟨?_, by decide⟩
  rcases mem_withErrorHandling_cases .script (scriptBody o st) st _ hmem with
    ⟨mm, hm⟩ | ⟨bb, hb⟩ | hbody
  · exact absurd hm (by simp)
  · exact absurd hb (by simp)
  · unfold scriptBody at hbody
    rw [if_neg (by simp [hne])] at hbody
    simp only [List.mem_cons] at hbody
    rcases hbody with h | h
    · exact absurd h (by simp)
    · exact scriptLoop_call_target o st.bookTitle _ st.selectedModel st.apiKeyGemini
        st.outline 0 item bt tc m a h

/-- A state with a stored (non-empty) outline, for the C7 witness. -/
def stOutline : AppState := { stBase with outline := enumOutline rawsW }

/-- Witness for C7 at a concrete state with a stored outline of length 2
and duration 240: the issued target is round(240000 / 2) = 120000. -/
theorem per_block_target_is_round_witness :
    stOutline.outline.isEmpty = false
    ∧ Ev.call (ServiceCall.scriptBlockCall ⟨0, ("Hook".data), ("Mở đầu".data),
        [("h1".data)]⟩ stOutline.bookTitle 120000 stOutline.selectedModel
        stOutline.apiKeyGemini) ∈ handleGenerateScript oracleOk stOutline
    ∧ 120000 = jsRound (stOutline.durationMin * 1000) stOutline.outline.length := by
  have hmem : Ev.call (ServiceCall.scriptBlockCall ⟨0, ("Hook".data), ("Mở đầu".data),
      [("h1".data)]⟩ stOutline.bookTitle 120000 stOutline.selectedModel
      stOutline.apiKeyGemini) ∈ handleGenerateScript oracleOk stOutline := by decide
  exact ⟨by decide, hmem,
    (per_block_target_is_round oracleOk stOutline (by decide) _ _ _ _ _ hmem).1⟩

/-! ## Claim C3 -/

/-- Claim C3: prompt generation issues the video-prompt and
thumbnail-idea requests together (both requests appear in the trace
before any result is written, in every outcome); the two result lists are
written only after both calls succeeded; if either call rejects, neither
list is written (both retain their prior values) and exactly one error
message is surfaced. -/
theorem prompts_join_semantics (o : Oracle) (st : AppState)
    (hg : gateError st = none) :
    (∀ ps ts, o.videoResp = .ok ps → o.thumbResp = .ok ts →
      handleGeneratePrompts o st
        = [Ev.setError none, Ev.setLoading .prompts true,
           Ev.call (ServiceCall.videoPromptsCall st.bookTitle st.frameRatio
             st.selectedModel st.apiKeyGemini),
           Ev.call (ServiceCall.thumbIdeasCall st.bookTitle st.durationMin
             st.selectedModel st.apiKeyGemini),
           Ev.setVideoPrompts ps, Ev.setThumbTextIdeas ts,
           Ev.setLoading .prompts false])
    ∧ (∀ e, o.videoResp = .error e →
      handleGeneratePrompts o st
        = [Ev.setError none, Ev.setLoading .prompts true,
           Ev.call (ServiceCall.videoPromptsCall st.bookTitle st.frameRatio
             st.selectedModel st.apiKeyGemini),
           Ev.call (ServiceCall.thumbIdeasCall st.bookTitle st.durationMin
             st.selectedModel st.apiKeyGemini),
           Ev.setError (some (opErrMsg .prompts e)), Ev.setLoading .prompts false])
    ∧ (∀ ps e, o.videoResp = .ok ps → o.thumbResp = .error e →
      handleGeneratePrompts o st
        = [Ev.setError none, Ev.setLoading .prompts true,
           Ev.call (ServiceCall.videoPromptsCall st.bookTitle st.frameRatio
             st.selectedModel st.apiKeyGemini),
           Ev.call (ServiceCall.thumbIdeasCall st.bookTitle st.durationMin
             st.selectedModel st.apiKeyGemini),
           Ev.setError (some (opErrMsg .prompts e)), Ev.setLoading .prompts false])
    ∧ ((∃ e, o.videoResp = .error e) ∨ (∃ e, o.thumbResp = .error e) →
      (run st (handleGeneratePrompts o st)).videoPrompts = st.videoPrompts
      ∧ (run st (handleGeneratePrompts o st)).thumbTextIdeas = st.thumbTextIdeas
      ∧ (handleGeneratePrompts o st).countP setsErrorMsg = 1
      ∧ ∃ e, (run st (handleGeneratePrompts o st)).error
          = some (opErrMsg .prompts e)) := by
  refine ⟨?_, ?_, ?_, ?_⟩
  · intro ps ts hv ht
    unfold handleGeneratePrompts withErrorHandling promptsBody
    rw [hg]
    simp [hv, ht]
  · intro e hv
    unfold handleGeneratePrompts withErrorHandling promptsBody
    rw [hg]
    cases ht : o.thumbResp <;> simp [hv, ht]
  · intro ps e hv ht
    unfold handleGeneratePrompts withErrorHandling promptsBody
    rw [hg]
    simp [hv, ht]
  · intro hfail
    have key : ∃ e, handleGeneratePrompts o st
        = [Ev.setError none, Ev.setLoading .prompts true,
           Ev.call (ServiceCall.videoPromptsCall st.bookTitle st.frameRatio
             st.selectedModel st.apiKeyGemini),
           Ev.call (ServiceCall.thumbIdeasCall st.bookTitle st.durationMin
             st.selectedModel st.apiKeyGemini),
           Ev.setError (some (opErrMsg .prompts e)), Ev.setLoading .prompts false] := by
      unfold handleGeneratePrompts withErrorHandling promptsBody
      rw [hg]
      cases hv : o.videoResp with
      | error e => exact ⟨e, by simp⟩
      | ok ps =>
        cases ht : o.thumbResp with
        | error e => exact ⟨e, by simp⟩
        | ok ts =>
          rcases hfail with ⟨e, he⟩ | ⟨e, he⟩
          · rw [hv] at he; cases he
          · rw [ht] at he; cases he
    obtain ⟨e, htr⟩ := key
    rw [htr]
    refine ⟨by simp [run, applyEv], by simp [run, applyEv], ?_, e, by simp [run, applyEv]⟩
    simp [List.countP, List.countP.go, setsErrorMsg]

/-- Oracle whose video-prompt call rejects and whose other calls
succeed. -/
def oracleVideoErr : Oracle := { oracleOk with videoResp := .error ("boom".data) }

/-- A state with prior prompt results, for the C3 witness. -/
def stPrompts : AppState :=
  { stBase with videoPrompts := [("old-p".data)], thumbTextIdeas := [("old-t".data)] }

/-- Witness for C3: with the video call rejecting, both result lists keep
their prior values and one error is surfaced. -/
theorem prompts_join_semantics_witness :
    gateError stPrompts = none
    ∧ (run stPrompts (handleGeneratePrompts oracleVideoErr stPrompts)).videoPrompts
        = stPrompts.videoPrompts
    ∧ (run stPrompts (handleGeneratePrompts oracleVideoErr stPrompts)).thumbTextIdeas
        = stPrompts.thumbTextIdeas
    ∧ (handleGeneratePrompts oracleVideoErr stPrompts).countP setsErrorMsg = 1 := by
  have h := (prompts_join_semantics oracleVideoErr stPrompts (by decide)).2.2.2
    (Or.inl ⟨("boom".data), rfl⟩)
  exact ⟨by decide, h.1, h.2.1, h.2.2.1⟩

/-! ## Claim C1 -/

/-- A state that selects a Gemini model while the Gemini key field is
empty (the gate never checks the Gemini key). -/
def stGeminiNoKey : AppState := { stBase with apiKeyGemini := [] }

/-- Counterexample to C1 as stated: with a Gemini model selected and the
Gemini credential field empty, the outline operation still issues a
service call and sets no error message, instead of failing the gate. -/
theorem precondition_gate_counterexample :
    stGeminiNoKey.selectedModel = ("gemini-3-pro-preview".data)
    ∧ stGeminiNoKey.apiKeyGemini = []
    ∧ (handleGenerateOutline oracleOk stGeminiNoKey).any isCallEv = true
    ∧ (run stGeminiNoKey (handleGenerateOutline oracleOk stGeminiNoKey)).error
        = none := by decide

theorem weh_gate_title (key : OpKey) (body : List Ev × Except Str Unit)
    (st : AppState) (h : st.bookTitle = []) :
    withErrorHandling key body st = [Ev.setError (some msgNeedTitle)] := by
  unfold withErrorHandling gateError
  simp [h]

theorem weh_gate_openai (key : OpKey) (body : List Ev × Except Str Unit)
    (st : AppState) (h1 : st.bookTitle ≠ [])
    (h2 : startsWithGpt st.selectedModel = true) (h3 : st.apiKeyOpenAI = []) :
    withErrorHandling key body st = [Ev.setError (some msgNeedOpenAIKey)] := by
  unfold withErrorHandling gateError
  simp [List.isEmpty_iff, h1, h2, h3]

theorem weh_gate_pass (key : OpKey) (body : List Ev × Except Str Unit)
    (st : AppState) (h : gateError st = none) :
    ∃ tl, withErrorHandling key body st
      = Ev.setError none :: Ev.setLoading key true :: tl := by
  unfold withErrorHandling
  rw [h]
  exact ⟨_, rfl⟩

/-- Claim C1, amended: the credential part of the gate checks only models
whose id starts with "gpt" against the OpenAI key; the Gemini key is
never checked.  For every operation: an empty book title sets the title
error and the handler performs nothing else (in particular no service
call); a gpt model with an empty OpenAI key likewise sets the key error
and performs nothing else; when the gate passes, the handler first clears
the error and sets the operation's busy flag, before any further event
(hence before any service call). -/
theorem precondition_gate_amended (k : OpKey) (o : Oracle) (st : AppState) :
    (st.bookTitle = [] → handlerOf k o st = [Ev.setError (some msgNeedTitle)])
    ∧ (st.bookTitle ≠ [] → startsWithGpt st.selectedModel = true →
        st.apiKeyOpenAI = [] →
        handlerOf k o st = [Ev.setError (some msgNeedOpenAIKey)])
    ∧ (gateError st = none → ∃ tl, handlerOf k o st
        = Ev.setError none :: Ev.setLoading k true :: tl) := by
  cases k
  case outline =>
    exact ⟨fun h => weh_gate_title _ _ _ h,
      fun h1 h2 h3 => weh_gate_openai _ _ _ h1 h2 h3,
      fun h => weh_gate_pass _ _ _ h⟩
  case seo =>
    exact ⟨fun h => weh_gate_title _ _ _ h,
      fun h1 h2 h3 => weh_gate_openai _ _ _ h1 h2 h3,
      fun h => weh_gate_pass _ _ _ h⟩
  case script =>
    exact ⟨fun h => weh_gate_title _ _ _ h,
      fun h1 h2 h3 => weh_gate_openai _ _ _ h1 h2 h3,
      fun h => weh_gate_pass _ _ _ h⟩
  case prompts =>
    exact ⟨fun h => weh_gate_title _ _ _ h,
      fun h1 h2 h3 => weh_gate_openai _ _ _ h1 h2 h3,
      fun h => weh_gate_pass _ _ _ h⟩

/-- A state with an empty book title. -/
def stNoTitle : AppState := { stBase with bookTitle := [] }

/-- A state selecting a gpt model with the OpenAI key left empty. -/
def stGptNoKey : AppState := { stBase with selectedModel := ("gpt-5.2-auto".data) }

/-- Witness for the amended C1, covering all three branches at concrete
states. -/
theorem precondition_gate_amended_witness :
    handlerOf .outline oracleOk stNoTitle = [Ev.setError (some msgNeedTitle)]
    ∧ handlerOf .seo oracleOk stGptNoKey = [Ev.setError (some msgNeedOpenAIKey)]
    ∧ (handlerOf .script oracleOk stBase).take 2
        = [Ev.setError none, Ev.setLoading .script true] := by
  refine ⟨(precondition_gate_amended .outline oracleOk stNoTitle).1 rfl,
    (precondition_gate_amended .seo oracleOk stGptNoKey).2.1
      (by decide) (by decide) rfl, ?_⟩
  obtain ⟨tl, htl⟩ := (precondition_gate_amended .script oracleOk stBase).2.2 (by decide)
  rw [htl]
  rfl

/-! ## Claim C4 -/

/-- Oracle whose script-block calls all reject. -/
def oracleScriptErr : Oracle :=
  { oracleOk with scriptResp := fun _ => .error ("neterr".data) }

/-- A state holding a previously computed script block. -/
def stBlocks : AppState :=
  { stBase with scriptBlocks := [⟨1, ("Old".data), ("old text".data), 8⟩] }

/-- Counterexample to C4 as stated: a script generation that fails at the
first block request has already cleared the previously computed script
blocks, so the results are not left unchanged (the run is a failure: one
error message is surfaced). -/
theorem failure_frame_counterexample :
    (handleGenerateScript oracleScriptErr stBlocks).countP setsErrorMsg = 1
    ∧ decide ((run stBlocks (handleGenerateScript oracleScriptErr stBlocks)).scriptBlocks
        = stBlocks.scriptBlocks) = false
    ∧ (run stBlocks (handleGenerateScript oracleScriptErr stBlocks)).scriptBlocks
        = [] := by decide

theorem flagOf_setFlag (l : LoadingStates) (k : OpKey) (b : Bool) :
    flagOf (setFlag l k b) k = b := by
  cases k <;> rfl

theorem flagOf_run_last (st : AppState) (evs : List Ev) (key : OpKey) :
    flagOf (run st (evs ++ [Ev.setLoading key false])).loading key = false := by
  rw [run_append]
  simp only [run, List.foldl_cons, List.foldl_nil, applyEv]
  exact flagOf_setFlag _ key false

theorem weh_busy_cleared (key : OpKey) (body : List Ev × Except Str Unit)
    (st : AppState) (h : gateError st = none) :
    flagOf (run st (withErrorHandling key body st)).loading key = false := by
  have htr : withErrorHandling key body st
      = (Ev.setError none :: Ev.setLoading key true ::
          (body.1 ++ (match body.2 with
            | .ok _ => []
            | .error e => [Ev.setError (some (opErrMsg key e))])))
        ++ [Ev.setLoading key false] := by
    unfold withErrorHandling
    rw [h]
    cases body.2 <;> simp
  rw [htr]
  exact flagOf_run_last st _ key

/-- Events that do not write the SEO result, the video prompts or the
thumbnail ideas. -/
def preservesSVT : Ev → Bool
  | .setSeo _ => false
  | .setVideoPrompts _ => false
  | .setThumbTextIdeas _ => false
  | _ => true

theorem run_preserves_svt : ∀ (evs : List Ev),
    (∀ e ∈ evs, preservesSVT e = true) → ∀ st : AppState,
    (run st evs).seo = st.seo ∧ (run st evs).videoPrompts = st.videoPrompts
    ∧ (run st evs).thumbTextIdeas = st.thumbTextIdeas := by
  intro evs
  induction evs with
  | nil => intro _ st; exact ⟨rfl, rfl, rfl⟩
  | cons e rest ih =>
    intro h st
    have he := h e (List.mem_cons_self e rest)
    have hrest := ih (fun e' he' => h e' (List.mem_cons_of_mem _ he')) (applyEv st e)
    have hseo : (applyEv st e).seo = st.seo := by
      cases e <;> simp_all [applyEv, preservesSVT]
    have hvid : (applyEv st e).videoPrompts = st.videoPrompts := by
      cases e <;> simp_all [applyEv, preservesSVT]
    have hthumb : (applyEv st e).thumbTextIdeas = st.thumbTextIdeas := by
      cases e <;> simp_all [applyEv, preservesSVT]
    have hrun : run st (e :: rest) = run (applyEv st e) rest := rfl
    rw [hrun]
    exact ⟨hrest.1.trans hseo, hrest.2.1.trans hvid, hrest.2.2.trans hthumb⟩

theorem scriptLoop_svt (o : Oracle) (bt : Str) (cpb : Nat) (m a : Str) :
    ∀ (items : List OutlineItem) (k : Nat) (e : Ev),
    e ∈ (scriptLoop o bt cpb m a items k).1 → preservesSVT e = true := by
  intro items
  induction items with
  | nil => intro k e h; simp [scriptLoop] at h
  | cons item rest ih =>
    intro k e h
    cases hr : o.scriptResp k with
    | error er =>
      simp only [scriptLoop, hr, List.mem_singleton] at h
      subst h; rfl
    | ok text =>
      simp only [scriptLoop, hr, List.mem_cons] at h
      rcases h with h | h | h
      · subst h; rfl
      · subst h; rfl
      · exact ih (k + 1) e h

theorem handleGenerateScript_svt (o : Oracle) (st : AppState) (e : Ev)
    (h : e ∈ handleGenerateScript o st) : preservesSVT e = true := by
  rcases mem_withErrorHandling_cases .script (scriptBody o st) st e h with
    ⟨mm, rfl⟩ | ⟨bb, rfl⟩ | hbody
  · rfl
  · rfl
  · unfold scriptBody at hbody
    by_cases he : st.outline.isEmpty = true
    · rw [if_pos he] at hbody
      cases hr : o.outlineResp with
      | error er =>
        rw [hr] at hbody
        simp only [List.mem_cons] at hbody
        rcases hbody with rfl | rfl | hbody
        · rfl
        · rfl
        · exact absurd hbody (List.not_mem_nil e)
      | ok raws =>
        rw [hr] at hbody
        simp only [List.mem_cons] at hbody
        rcases hbody with rfl | rfl | rfl | hbody
        · rfl
        · rfl
        · rfl
        · exact scriptLoop_svt o st.bookTitle _ st.selectedModel st.apiKeyGemini
            (enumOutline raws) 0 e hbody
    · rw [if_neg he] at hbody
      simp only [List.mem_cons] at hbody
      rcases hbody with rfl | hbody
      · rfl
      · exact scriptLoop_svt o st.bookTitle _ st.selectedModel st.apiKeyGemini
          st.outline 0 e hbody

/-- Claim C4, amended: every failure inside an operation body clears that
operation's busy flag.  For the outline, SEO and prompt operations a
failure leaves every previously computed result (outline, script blocks,
SEO, prompts) unchanged.  The script operation preserves the SEO and
prompt results, but it resets the script-block list at its start (a
mid-sequence failure keeps only the blocks appended before it) and, when
the stored outline was empty, it may have stored a freshly generated
outline before failing. -/
theorem failure_frame_amended (o : Oracle) (st : AppState)
    (hg : gateError st = none) :
    (∀ k : OpKey, flagOf (run st (handlerOf k o st)).loading k = false)
    ∧ (∀ e, o.outlineResp = .error e →
        (run st (handleGenerateOutline o st)).outline = st.outline
        ∧ (run st (handleGenerateOutline o st)).seo = st.seo
        ∧ (run st (handleGenerateOutline o st)).scriptBlocks = st.scriptBlocks
        ∧ (run st (handleGenerateOutline o st)).videoPrompts = st.videoPrompts
        ∧ (run st (handleGenerateOutline o st)).thumbTextIdeas = st.thumbTextIdeas)
    ∧ (∀ e, o.seoResp = .error e →
        (run st (handleGenerateSEO o st)).outline = st.outline
        ∧ (run st (handleGenerateSEO o st)).seo = st.seo
        ∧ (run st (handleGenerateSEO o st)).scriptBlocks = st.scriptBlocks
        ∧ (run st (handleGenerateSEO o st)).videoPrompts = st.videoPrompts
        ∧ (run st (handleGenerateSEO o st)).thumbTextIdeas = st.thumbTextIdeas)
    ∧ ((∃ e, o.videoResp = .error e) ∨ (∃ e, o.thumbResp = .error e) →
        (run st (handleGeneratePrompts o st)).outline = st.outline
        ∧ (run st (handleGeneratePrompts o st)).seo = st.seo
        ∧ (run st (handleGeneratePrompts o st)).scriptBlocks = st.scriptBlocks
        ∧ (run st (handleGeneratePrompts o st)).videoPrompts = st.videoPrompts
        ∧ (run st (handleGeneratePrompts o st)).thumbTextIdeas = st.thumbTextIdeas)
    ∧ ((run st (handleGenerateScript o st)).seo = st.seo
        ∧ (run st (handleGenerateScript o st)).videoPrompts = st.videoPrompts
        ∧ (run st (handleGenerateScript o st)).thumbTextIdeas
            = st.thumbTextIdeas) := by
  refine ⟨?_, ?_, ?_, ?_, ?_⟩
  · intro k
    cases k
    case outline => exact weh_busy_cleared .outline (outlineBody o st) st hg
    case seo => exact weh_busy_cleared .seo (seoBody o st) st hg
    case script => exact weh_busy_cleared .script (scriptBody o st) st hg
    case prompts => exact weh_busy_cleared .prompts (promptsBody o st) st hg
  · intro e he
    unfold handleGenerateOutline withErrorHandling outlineBody
    rw [hg, he]
    simp [run, applyEv]
  · intro e he
    unfold handleGenerateSEO withErrorHandling seoBody
    rw [hg, he]
    simp [run, applyEv]
  · intro hfail
    unfold handleGeneratePrompts withErrorHandling promptsBody
    rw [hg]
    cases hv : o.videoResp with
    | error e => simp [run, applyEv]
    | ok ps =>
      cases ht : o.thumbResp with
      | error e => simp [run, applyEv]
      | ok ts =>
        exfalso
        rcases hfail with ⟨e, he⟩ | ⟨e, he⟩
        · rw [hv] at he; cases he
        · rw [ht] at he; cases he
  · exact run_preserves_svt (handleGenerateScript o st)
      (fun e he => handleGenerateScript_svt o st e he) st

/-- Witness for the amended C4: a failing script run at a concrete state
clears the script busy flag and leaves the SEO result unchanged. -/
theorem failure_frame_amended_witness :
    gateError stBlocks = none
    ∧ flagOf (run stBlocks (handlerOf .script oracleScriptErr stBlocks)).loading
        .script = false
    ∧ (run stBlocks (handleGenerateScript oracleScriptErr stBlocks)).seo
        = stBlocks.seo := by
  have h := failure_frame_amended oracleScriptErr stBlocks (by decide)
  exact ⟨by decide, h.1 .script, h.2.2.2.2.1⟩

/-! ## Claim C8 -/

/-- Claim C8: the CSV export prefixes a UTF-8 byte-order mark, renders
every field enclosed in double quotes with embedded quotes doubled,
joins fields by commas and rows by CRLF; on the example rows the second
row renders exactly as stated in the specification. -/
theorem csv_export_format :
    (∀ rows : List (List Str), (csvContent rows).head? = some bomChar)
    ∧ csvContent [[("a".data), ("b".data)], [("c,d".data), ("e\"f".data)]]
        = bomChar :: ("\"a\",\"b\"\r\n\"c,d\",\"e\"\"f\"".data)
    ∧ processRow [("c,d".data), ("e\"f".data)] = ("\"c,d\",\"e\"\"f\"".data)
    ∧ quoteField ("e\"f".data) = ("\"e\"\"f\"".data) :=
  ⟨fun _ => rfl, by decide, by decide, by decide⟩

/-! ## Claim C9 -/

/-- No two adjacent hyphens anywhere in the list. -/
abbrev NoHH (l : List Char) : Prop :=
  l.Chain' (fun a b => ¬(a = '-' ∧ b = '-'))

theorem isAlnumLower_ne_hyphen (c : Char) (h : isAlnumLower c = true) :
    c ≠ '-' := by
  intro hc
  subst hc
  simp [isAlnumLower] at h

theorem collapseRuns_true_head : ∀ l : List Char,
    collapseRuns true l = []
    ∨ ∃ c t, collapseRuns true l = c :: t ∧ isAlnumLower c = true := by
  intro l
  induction l with
  | nil => exact Or.inl rfl
  | cons c rest ih =>
    by_cases hc : isAlnumLower c = true
    · exact Or.inr ⟨c, collapseRuns false rest, by simp [collapseRuns, hc], hc⟩
    · have : collapseRuns true (c :: rest) = collapseRuns true rest := by
        simp [collapseRuns, hc]
      rw [this]
      exact ih

theorem chain_collapseRuns : ∀ (l : List Char) (b : Bool),
    NoHH (collapseRuns b l) := by
  intro l
  induction l with
  | nil => intro b; exact List.chain'_nil
  | cons c rest ih =>
    intro b
    by_cases hc : isAlnumLower c = true
    · have hred : collapseRuns b (c :: rest) = c :: collapseRuns false rest := by
        simp [collapseRuns, hc]
      rw [hred]
      refine List.chain'_cons'.mpr ⟨?_, ih false⟩
      intro y _ hy
      exact isAlnumLower_ne_hyphen c hc hy.1
    · cases b with
      | true =>
        have hred : collapseRuns true (c :: rest) = collapseRuns true rest := by
          simp [collapseRuns, hc]
        rw [hred]
        exact ih true
      | false =>
        have hred : collapseRuns false (c :: rest)
            = '-' :: collapseRuns true rest := by
          simp [collapseRuns, hc]
        rw [hred]
        refine List.chain'_cons'.mpr ⟨?_, ih true⟩
        intro y hy hcontra
        rcases collapseRuns_true_head rest with h0 | ⟨c', t', heq, halnum⟩
        · rw [h0] at hy; cases hy
        · rw [heq] at hy
          simp only [List.head?_cons, Option.mem_def, Option.some.injEq] at hy
          exact isAlnumLower_ne_hyphen c' halnum (hy ▸ hcontra.2)

theorem NoHH_reverse (l : List Char) (h : NoHH l) : NoHH l.reverse :=
  List.chain'_reverse.mpr (h.imp (fun _ _ hab hba => hab ⟨hba.2, hba.1⟩))

theorem NoHH_dropLeadHyphen (l : List Char) (h : NoHH l) :
    NoHH (dropLeadHyphen l) := by
  cases l with
  | nil => exact h
  | cons c t =>
    simp only [dropLeadHyphen]
    by_cases hc : c = '-'
    · rw [if_pos hc]
      exact h.tail
    · rw [if_neg hc]
      exact h

theorem headOk_dropLeadHyphen (l : List Char) (h : NoHH l) :
    (dropLeadHyphen l).head? ≠ some '-' := by
  cases l with
  | nil => simp [dropLeadHyphen]
  | cons c t =>
    simp only [dropLeadHyphen]
    by_cases hc : c = '-'
    · rw [if_pos hc]
      cases t with
      | nil => simp
      | cons x ts =>
        subst hc
        have h' := List.chain'_cons.mp h
        simp only [List.head?_cons, ne_eq, Option.some.injEq]
        intro hx
        exact h'.1 ⟨rfl, hx⟩
    · rw [if_neg hc]
      simp only [List.head?_cons, ne_eq, Option.some.injEq]
      exact hc

theorem lastOk_dropLeadHyphen (l : List Char) (h : l.getLast? ≠ some '-') :
    (dropLeadHyphen l).getLast? ≠ some '-' := by
  cases l with
  | nil => simp [dropLeadHyphen]
  | cons c t =>
    simp only [dropLeadHyphen]
    by_cases hc : c = '-'
    · rw [if_pos hc]
      cases t with
      | nil => simp
      | cons x ts =>
        rwa [List.getLast?_cons_cons] at h
    · rwa [if_neg hc]

theorem trim_no_hyphen_ends (l : List Char) (h : NoHH l) :
    (trimHyphens l).head? ≠ some '-' ∧ (trimHyphens l).getLast? ≠ some '-' := by
  have hm : NoHH (dropLeadHyphen l) := NoHH_dropLeadHyphen l h
  have hmrev : NoHH (dropLeadHyphen l).reverse := NoHH_reverse _ hm
  constructor
  · show (dropLeadHyphen (dropLeadHyphen l).reverse).reverse.head? ≠ some '-'
    rw [List.head?_reverse]
    have hlast : (dropLeadHyphen l).reverse.getLast? ≠ some '-' := by
      rw [List.getLast?_reverse]
      exact headOk_dropLeadHyphen l h
    exact lastOk_dropLeadHyphen _ hlast
  · show (dropLeadHyphen (dropLeadHyphen l).reverse).reverse.getLast? ≠ some '-'
    rw [List.getLast?_reverse]
    exact headOk_dropLeadHyphen _ hmrev

/-- Claim C9: slugify lower-cases, strips diacritics, collapses runs of
non-alphanumeric characters to single hyphens and trims the boundary
hyphens, so its result never begins or ends with a hyphen; the
Vietnamese example maps as specified, and the empty string falls back to
the fixed default slug. -/
theorem slugify_shape :
    (∀ s : Str, (slugify s).head? ≠ some '-' ∧ (slugify s).getLast? ≠ some '-')
    ∧ slugify ("Nhà Giả Kim".data) = ("nha-gia-kim".data)
    ∧ slugify [] = ("ndgroup".data) := by
  refine ⟨?_, by decide, by decide⟩
  intro s
  exact trim_no_hyphen_ends _ (chain_collapseRuns _ false)

/-- Witness for C9 at two concrete inputs. -/
theorem slugify_shape_witness :
    (slugify ("Nhà Giả Kim".data)).head? ≠ some '-'
    ∧ (slugify ("!!!".data)).getLast? ≠ some '-' :=
  ⟨(slugify_shape.1 ("Nhà Giả Kim".data)).1, (slugify_shape.1 ("!!!".data)).2⟩

/-! ## Claim C10 -/

/-- The preprocessing slugify applies before collapsing runs: lower-case,
NFD decomposition, diacritic removal. -/
def preSlug (s : Str) : Str :=
  ((s.map jsToLower).flatMap nfd).filter (fun c => !(isDiacritic c))

theorem collapseRuns_true_all_nonalnum : ∀ l : List Char,
    (∀ c ∈ l, isAlnumLower c = false) → collapseRuns true l = [] := by
  intro l
  induction l with
  | nil => intro _; rfl
  | cons c rest ih =>
    intro h
    have hc : isAlnumLower c = false := h c (List.mem_cons_self c rest)
    have : collapseRuns true (c :: rest) = collapseRuns true rest := by
      simp [collapseRuns, hc]
    rw [this]
    exact ih (fun c' hc' => h c' (List.mem_cons_of_mem _ hc'))

theorem collapseRuns_false_all_nonalnum (l : List Char)
    (h : ∀ c ∈ l, isAlnumLower c = false) :
    collapseRuns false l = [] ∨ collapseRuns false l = ['-'] := by
  cases l with
  | nil => exact Or.inl rfl
  | cons c rest =>
    have hc : isAlnumLower c = false := h c (List.mem_cons_self c rest)
    have hred : collapseRuns false (c :: rest) = '-' :: collapseRuns true rest := by
      simp [collapseRuns, hc]
    rw [hred, collapseRuns_true_all_nonalnum rest
      (fun c' hc' => h c' (List.mem_cons_of_mem _ hc'))]
    exact Or.inr rfl

/-- Claim C10: the "ndgroup" fallback is applied only to the empty input;
a non-empty input whose preprocessed characters are all non-alphanumeric
(such as "!!!") slugifies to the empty string, so the script-CSV file
name degenerates to the bare prefix plus "_.csv". -/
theorem slugify_default_only_when_empty :
    (∀ s : Str, s ≠ [] → (∀ c ∈ preSlug s, isAlnumLower c = false) →
      slugify s = [])
    ∧ slugify ("!!!".data) = []
    ∧ exportScriptFilename ("!!!".data) = ("kichban_.csv".data) := by
  refine ⟨?_, by decide, by decide⟩
  intro s hs hall
  unfold slugify
  rw [if_neg hs]
  show trimHyphens (collapseRuns false (preSlug s)) = []
  rcases collapseRuns_false_all_nonalnum (preSlug s) hall with h0 | h1
  · rw [h0]
    decide
  · rw [h1]
    decide

/-- Witness for C10 at the concrete input "!!!". -/
theorem slugify_default_only_when_empty_witness :
    slugify ("!!!".data) = []
    ∧ exportScriptFilename ("!!!".data) = ("kichban_.csv".data) :=
  ⟨slugify_default_only_when_empty.1 ("!!!".data) (by decide) (by decide),
   slugify_default_only_when_empty.2.2⟩
